import Mathlib

/-!
Verification development for the heat-cool thermium program.

The program controls a cloud-connected thermostat's auxiliary-heat mode in a
single one-shot run.  This file gives a shallow embedding of the parts of the
program relevant to its specification:

* `PersistentData` with `setVal`, `getVal`, enter and exit semantics
  (src/heat-cool/src/util/persistentdata.py);
* the bounded retry loops of `NexiaProc.login` and
  `NexiaProc.loadSensorStateRobustly` (src/heat-cool/src/thermium.py);
* the polling loop of `NexiaProc.loadCurrentSensorState`;
* `NexiaProc.sensorData` formatting;
* the three run-mode processors `AuxHeatEnabler`, `AuxHeatRestorer` and
  `StatusPresenter`, modelled as event-trace producing functions over an
  external remote world.

Python dicts are modelled as insertion-ordered association lists; remote calls
are modelled as recorded events; an exception propagating out of a modelled
function is represented by an explicit raised outcome.  The file lists the
definitions first and the theorems after them.
-/

set_option autoImplicit false

namespace Thermium

/-! ## Association lists modelling Python dict operations -/

/-- Lookup in an insertion-ordered association list, modelling Python
dict indexing (returning an option instead of raising KeyError). -/
def alookup {β : Type} (k : String) : List (String × β) → Option β
  | [] => none
  | (k2, v) :: rest => if k2 = k then some v else alookup k rest

/-- Update the binding of a present key in place, or append the new binding at
the end, modelling a Python dict item assignment. -/
def aupsert {β : Type} (k : String) (v : β) : List (String × β) → List (String × β)
  | [] => [(k, v)]
  | (k2, v2) :: rest => if k2 = k then (k2, v) :: rest else (k2, v2) :: aupsert k v rest

/-! ## PersistentData (src/heat-cool/src/util/persistentdata.py)

The store maps a category string to a mapping from instance-id strings to
values.  The value type is abstract (the program stores JSON-serializable
values; the engine stores booleans).  The persistence file is modelled as an
optional store content: json.dump followed by json.load reproduces the dumped
dict, so the file holds the abstract mappings, and an absent file is `none`. -/

/-- State of a `PersistentData` instance: the loaded `_data` dict and the
`needsSave` dirty flag. -/
structure PersistentData (α : Type) where
  data : List (String × List (String × α))
  needsSave : Bool
  deriving DecidableEq

/-- `PersistentData.setVal`: store a value, setting `needsSave` only when the
category is new, the instance id is new in its category, or the stored value
differs from the one being set. -/
def PersistentData.setVal {α : Type} [DecidableEq α] (pd : PersistentData α)
    (category instanceId : String) (val : α) : PersistentData α :=
  match alookup category pd.data with
  | none =>
      { data := aupsert category [(instanceId, val)] pd.data, needsSave := true }
  | some cat =>
      match alookup instanceId cat with
      | some v =>
          if v = val then pd
          else { data := aupsert category (aupsert instanceId val cat) pd.data,
                 needsSave := true }
      | none =>
          { data := aupsert category (aupsert instanceId val cat) pd.data,
            needsSave := true }

/-- `PersistentData.getVal`: retrieve a stored value (wrapped in `some`),
falling back to `dflt` when either key is absent (the Python KeyError path).
The engine's only call site leaves the default at None, modelled as `none`. -/
def PersistentData.getVal {α : Type} (pd : PersistentData α)
    (category instanceId : String) (dflt : Option α) : Option α :=
  match alookup category pd.data with
  | none => dflt
  | some cat =>
      match alookup instanceId cat with
      | none => dflt
      | some v => some v

/-- `PersistentData.__init__` followed by `PersistentData.__enter__`: load the
data from the persistence file, or start empty when the file is absent
(the FileNotFoundError path); `needsSave` starts false. -/
def PersistentData.pdEnter {α : Type}
    (file : Option (List (String × List (String × α)))) : PersistentData α :=
  { data := file.getD [], needsSave := false }

/-- `PersistentData.__exit__`: write the data to the persistence file only when
`needsSave` is set, then clear the flag.  Returns the resulting file contents,
the list of disk writes performed, and the final instance state. -/
def PersistentData.pdExit {α : Type} (pd : PersistentData α)
    (file : Option (List (String × List (String × α)))) :
    Option (List (String × List (String × α)))
      × List (List (String × List (String × α))) × PersistentData α :=
  if pd.needsSave then (some pd.data, [pd.data], { pd with needsSave := false })
  else (file, [], pd)

/-! ## Bounded retry loops (NexiaProc.login, NexiaProc.loadSensorStateRobustly)

Both methods wrap a remote operation in the same loop: a budget of 6, catching
only the retryable exception class (ClientConnectorError for login, ClientError
for the sensor-state load), logging the failure at error severity, sleeping 15
time-units and decrementing on each catch, and letting any other exception
propagate.  The sequence of per-invocation outcomes is an external input. -/

/-- Outcome of one invocation of a retry-wrapped operation. -/
inductive AttemptResult
  | ok
  | retryErr
  | fatalErr
  deriving DecidableEq

/-- Observable steps of a retry loop: an invocation of the wrapped operation,
the error-severity log of a caught failure, and a sleep. -/
inductive REv
  | invoke
  | logFailure
  | sleep (q : Rat)
  deriving DecidableEq

/-- How a retry loop finished: the operation returned and the loop broke, the
budget ran out and the loop fell through normally, or a non-retryable
exception escaped. -/
inductive RetryResult
  | succeeded
  | exhausted
  | propagated
  deriving DecidableEq

/-- The retry loop of NexiaProc.login (thermium.py lines 161-171) and of
NexiaProc.loadSensorStateRobustly (lines 223-233).  `att n` is the outcome of
the n-th invocation, 0-based; `idx` is the index of the next invocation. -/
def retryLoop (att : Nat → AttemptResult) (idx : Nat) : Nat → List REv × RetryResult
  | 0 => ([], .exhausted)
  | r + 1 =>
    match att idx with
    | .ok => ([.invoke], .succeeded)
    | .fatalErr => ([.invoke], .propagated)
    | .retryErr =>
      let rest := retryLoop att (idx + 1) r
      (REv.invoke :: REv.logFailure :: REv.sleep 15 :: rest.1, rest.2)

/-- A full retry loop as the source runs it, with the budget of 6. -/
def retryRun (att : Nat → AttemptResult) : List REv × RetryResult :=
  retryLoop att 0 6

/-- Trace left by n consecutive retryable failures: each invocation is followed
by the failure log and the 15-unit sleep. -/
def failBlocks : Nat → List REv
  | 0 => []
  | n + 1 => REv.invoke :: REv.logFailure :: REv.sleep 15 :: failBlocks n

/-- Number of invocations of the wrapped operation recorded in a trace. -/
def invokeCount (evs : List REv) : Nat :=
  (evs.filter (fun e => decide (e = REv.invoke))).length

/-! ## Polling loop (NexiaProc.loadCurrentSensorState) -/

/-- Body of one polling GET: the literal null body, or a JSON body whose status
field is the given string. -/
inductive PollResp
  | nullBody
  | body (status : String)
  deriving DecidableEq

/-- Observable steps of the polling loop. -/
inductive PEv
  | sleep (q : Rat)
  | getPoll
  | logBadStatus (status : String)
  | logGaveUp
  deriving DecidableEq

/-- How the polling loop finished. -/
inductive PollOutcome
  | completed (status : String)
  | timedOut
  deriving DecidableEq

/-- The polling loop of NexiaProc.loadCurrentSensorState (thermium.py lines
201-219): while the remaining budget is nonzero, sleep 0.8 time-units, GET the
polling url; a non-null body is parsed, a status other than success is logged
as an error, and the method returns; a null body decrements the budget; when
the budget is exhausted the method logs giving up and returns normally.
`g n` is the body of the n-th GET, 0-based. -/
def pollLoop (g : Nat → PollResp) (idx : Nat) : Nat → List PEv × PollOutcome
  | 0 => ([.logGaveUp], .timedOut)
  | r + 1 =>
    match g idx with
    | .body s =>
      (PEv.sleep (4/5) :: PEv.getPoll ::
        (if s = "success" then [] else [PEv.logBadStatus s]), .completed s)
    | .nullBody =>
      let rest := pollLoop g (idx + 1) r
      (PEv.sleep (4/5) :: PEv.getPoll :: rest.1, rest.2)

/-- A full polling loop as the source runs it, with the budget of 50. -/
def pollRun (g : Nat → PollResp) : List PEv × PollOutcome :=
  pollLoop g 0 50

/-- Trace left by n consecutive null bodies: each GET preceded by its sleep. -/
def nullBlocks : Nat → List PEv
  | 0 => []
  | n + 1 => PEv.sleep (4/5) :: PEv.getPoll :: nullBlocks n

/-- Number of polling GETs recorded in a trace. -/
def pollCount (evs : List PEv) : Nat :=
  (evs.filter (fun e => decide (e = PEv.getPoll))).length

/-- Every polling GET in the trace comes immediately after a 0.8-unit sleep. -/
def pollsSleepPreceded : List PEv → Bool
  | [] => true
  | PEv.sleep q :: PEv.getPoll :: rest => decide (q = 4/5) && pollsSleepPreceded rest
  | PEv.getPoll :: _ => false
  | _ :: rest => pollsSleepPreceded rest

/-! ## Sensors and formatting (NexiaProc.sensorData) -/

/-- Sensor data object (thermium.py class Sensor).  The source annotates
weight as a float; no claim touches it and it is modelled as a rational. -/
structure Sensor where
  id : Int
  name : String
  type : String
  serial_number : String
  weight : Rat
  temperature : Int
  temperature_valid : Bool
  humidity : Int
  humidity_valid : Bool
  has_online : Bool
  has_battery : Bool
  deriving DecidableEq

/-- The per-sensor fragment built inside NexiaProc.sensorData (thermium.py
lines 148-152): a bare comma for the built-in thermostat sensor, the sensor
name and a colon otherwise, then a space, the temperature, the degree sign,
and the humidity text. -/
def sensorFragment (s : Sensor) : String :=
  (if s.type = "thermostat" then "," else s.name ++ ":")
    ++ " " ++ toString s.temperature ++ "° humidity " ++ toString s.humidity ++ "%"

/-- NexiaProc.sensorData (lines 142-155): the fragments joined with "; ".
A pure function of the sensor list. -/
def sensorData (sensors : List Sensor) : String :=
  String.intercalate "; " (sensors.map sensorFragment)

/-- The per-sensor fragment as the spec words it (spec 4.4 and claim C9), for
comparison with the fragment the source builds: a comma-space prefixed bare
reading for the thermostat sensor, and name-colon-space then the reading for
every other sensor. -/
def sensorFragmentSpec (s : Sensor) : String :=
  if s.type = "thermostat" then
    ", " ++ toString s.temperature ++ "° humidity " ++ toString s.humidity ++ "%"
  else
    s.name ++ ": " ++ toString s.temperature ++ "° humidity "
      ++ toString s.humidity ++ "%"

/-! ## The remote world and the reconciliation engine

The three processors AuxHeatEnabler, AuxHeatRestorer and StatusPresenter are
modelled as functions from the external remote world and the persistent store
to a trace of observable events, the final store, and a flag recording whether
an exception propagated out of the run.  Remote calls are recorded as events;
the detailed behaviour of the wrapped retry and polling loops is modelled
separately above, and a device pass records its loadSensorStateRobustly call
as a single event. -/

/-- One thermostat device as the engine observes it after login: the stable
device id, the display name, the auxiliary-heat flag that
is_emergency_heat_active() reports at the start of the device's pass, and the
sensor list backing sensorData. -/
structure Device where
  deviceId : String
  name : String
  auxHeatOn : Bool
  sensors : List Sensor
  deriving DecidableEq

/-- Observable events of a processor run. -/
inductive Ev
  | loginCall
  | errorLog (msg : String)
  | sleepEv (q : Rat)
  | updateCall
  | debugLog (msg : String)
  | infoLog (msg : String)
  | getValEv (category instanceId : String)
  | setValEv (category instanceId : String) (val : Bool)
  | loadSensorState (deviceId : String)
  | refreshDevice (deviceId : String)
  | setAuxHeat (deviceId : String) (val : Bool)
  deriving DecidableEq

/-- The external remote service as one run experiences it: the outcomes of the
nexiaHome.login() invocations, whether nexiaHome.update() raises, and the
value of nexiaHome.thermostats once update() has returned. -/
structure RemoteWorld where
  att : Nat → AttemptResult
  updateRaises : Bool
  thermostats : Option (List Device)

/-- Whether NexiaProc.login returned its success flag or ended with an
exception propagating out. -/
inductive LoginResult
  | raised
  | returned (success : Bool)
  deriving DecidableEq

/-- Events of the shared retry-loop model mapped to the events of login: its
retryable class is ClientConnectorError and its failure log line starts
"Login retry needed due to"; the dynamic exception text is elided. -/
def loginRetryEv : REv → Ev
  | .invoke => Ev.loginCall
  | .logFailure => Ev.errorLog "Login retry needed due to ClientConnectorError"
  | .sleep q => Ev.sleepEv q

/-- NexiaProc.auxOnOff (lines 236-244). -/
def auxOnOff (b : Bool) : String := if b then "on" else "off"

/-- NexiaProc.login (thermium.py lines 157-178): the retry loop around
nexiaHome.login(); then, unconditionally, nexiaHome.update(); then one debug
log per thermostat; finally the flag thermostats-is-not-None is returned.
A non-retryable exception from an attempt, an exception from update(), and
the TypeError from iterating thermostats when it is None each propagate. -/
def loginModel (w : RemoteWorld) : List Ev × LoginResult :=
  let loop := retryRun w.att
  let levs := loop.1.map loginRetryEv
  match loop.2 with
  | .propagated => (levs, .raised)
  | _ =>
    let levs2 := levs ++ [Ev.updateCall]
    if w.updateRaises then (levs2, .raised)
    else
      match w.thermostats with
      | none => (levs2, .raised)
      | some devs =>
        (levs2 ++ devs.map (fun d =>
            Ev.debugLog (d.name ++ " at login" ++ sensorData d.sensors)),
          .returned (Option.isSome w.thermostats))

/-- NexiaProc.PRIOR_AUX_STATE. -/
def PRIOR_AUX_STATE : String := "priorAuxState"

/-- One device pass of AuxHeatEnabler.process (lines 268-281): read the
auxiliary-heat flag, persist it under priorAuxState, load current sensor
state, then either refresh and log already-on, or call set_emergency_heat
True and log the change (the post-mutation auxOnOff read is modelled as the
value just set). -/
def enablerPass (pd : PersistentData Bool) (d : Device) :
    List Ev × PersistentData Bool :=
  let auxHeatOn := d.auxHeatOn
  let pd1 := PersistentData.setVal pd PRIOR_AUX_STATE d.deviceId auxHeatOn
  let evs := [Ev.setValEv PRIOR_AUX_STATE d.deviceId auxHeatOn,
              Ev.loadSensorState d.deviceId]
  if auxHeatOn then
    (evs ++ [Ev.refreshDevice d.deviceId,
      Ev.infoLog (d.name ++ " auxiliary heat was already on"
        ++ sensorData d.sensors)], pd1)
  else
    (evs ++ [Ev.setAuxHeat d.deviceId true,
      Ev.infoLog (d.name ++ " auxiliary heat changed from off to "
        ++ auxOnOff true ++ sensorData d.sensors)], pd1)

/-- One device pass of AuxHeatRestorer.process (lines 295-311): read the flag,
read the persisted prior state substituting False for None, load current
sensor state, then either refresh and log already-at-state, or call
set_emergency_heat with the prior value and log the change.  The store is
never written. -/
def restorerPass (pd : PersistentData Bool) (d : Device) :
    List Ev × PersistentData Bool :=
  let auxHeatOn := d.auxHeatOn
  let priorAuxHeat :=
    (PersistentData.getVal pd PRIOR_AUX_STATE d.deviceId none).getD false
  let evs := [Ev.getValEv PRIOR_AUX_STATE d.deviceId,
              Ev.loadSensorState d.deviceId]
  if auxHeatOn = priorAuxHeat then
    (evs ++ [Ev.refreshDevice d.deviceId,
      Ev.infoLog (d.name ++ " auxiliary heat was already "
        ++ auxOnOff auxHeatOn ++ sensorData d.sensors)], pd)
  else
    (evs ++ [Ev.setAuxHeat d.deviceId priorAuxHeat,
      Ev.infoLog (d.name ++ " auxiliary heat changed from "
        ++ auxOnOff auxHeatOn ++ " to " ++ auxOnOff priorAuxHeat
        ++ sensorData d.sensors)], pd)

/-- One device pass of StatusPresenter.process (lines 326-330): load current
sensor state, refresh, log the state; no store access, no mutation. -/
def statusPass (pd : PersistentData Bool) (d : Device) :
    List Ev × PersistentData Bool :=
  ([Ev.loadSensorState d.deviceId, Ev.refreshDevice d.deviceId,
    Ev.infoLog (d.name ++ " auxiliary heat is " ++ auxOnOff d.auxHeatOn
      ++ sensorData d.sensors)], pd)

/-- The for-each-thermostat loop shared by the three process methods. -/
def runPasses (pass : PersistentData Bool → Device → List Ev × PersistentData Bool)
    (pd : PersistentData Bool) : List Device → List Ev × PersistentData Bool
  | [] => ([], pd)
  | d :: ds =>
    let r := pass pd d
    let rest := runPasses pass r.2 ds
    (r.1 ++ rest.1, rest.2)

/-- The processor skeleton shared by the three process methods (lines 263-331):
login; when the returned flag is False, log the unable-to-contact error and
return; otherwise run the per-device passes over the thermostat list.  The
final component records whether an exception propagated out of the run. -/
def processModel (pass : PersistentData Bool → Device → List Ev × PersistentData Bool)
    (w : RemoteWorld) (pd : PersistentData Bool) :
    List Ev × PersistentData Bool × Bool :=
  let lr := loginModel w
  match lr.2 with
  | .raised => (lr.1, pd, true)
  | .returned success =>
    if success then
      let r := runPasses pass pd (w.thermostats.getD [])
      (lr.1 ++ r.1, r.2, false)
    else
      (lr.1 ++ [Ev.errorLog "Unable to contact thermostat"], pd, false)

/-- AuxHeatEnabler.process (lines 263-282). -/
def enablerProcess (w : RemoteWorld) (pd : PersistentData Bool) :
    List Ev × PersistentData Bool × Bool :=
  processModel enablerPass w pd

/-- AuxHeatRestorer.process (lines 290-313). -/
def restorerProcess (w : RemoteWorld) (pd : PersistentData Bool) :
    List Ev × PersistentData Bool × Bool :=
  processModel restorerPass w pd

/-- StatusPresenter.process (lines 321-331). -/
def statusProcess (w : RemoteWorld) (pd : PersistentData Bool) :
    List Ev × PersistentData Bool × Bool :=
  processModel statusPass w pd

/-- Whether an event is a set_emergency_heat call on the given device. -/
def isSetAuxFor (deviceId : String) : Ev → Bool
  | .setAuxHeat i _ => i == deviceId
  | _ => false

/-- Whether an event is a set_emergency_heat call or a persistent-store
access of any kind. -/
def isMutatingOrStore : Ev → Bool
  | .setAuxHeat _ _ => true
  | .setValEv _ _ _ => true
  | .getValEv _ _ => true
  | _ => false

/-- Whether an event is a log line of any severity. -/
def isLogEv : Ev → Bool
  | .infoLog _ => true
  | .debugLog _ => true
  | .errorLog _ => true
  | _ => false

/-- The events loginModel can emit. -/
def isLoginEv : Ev → Bool
  | .loginCall => true
  | .errorLog _ => true
  | .sleepEv _ => true
  | .updateCall => true
  | .debugLog _ => true
  | _ => false

/-- Whether an event is the error log line "Unable to contact thermostat"
that the process methods emit when login reports failure. -/
def isUnableMsg : Ev → Bool
  | .errorLog m => m == "Unable to contact thermostat"
  | _ => false

/-- Concrete device with auxiliary heat on, for witnesses. -/
def devOn : Device := ⟨"100", "Great Room", true, []⟩

/-- Concrete device with auxiliary heat off, for witnesses. -/
def devOff : Device := ⟨"200", "Cottage", false, []⟩

/-- Concrete remote world for witnesses: login succeeds at once, update
returns, two thermostats are known. -/
def wTwo : RemoteWorld := ⟨fun _ => AttemptResult.ok, false, some [devOn, devOff]⟩

/-- Concrete remote world for witnesses: every login attempt fails retryably,
update returns, and the thermostat list is present but empty. -/
def wEmpty : RemoteWorld := ⟨fun _ => AttemptResult.retryErr, false, some []⟩

/-- Concrete remote world at C6's failing input: every login attempt raises
ClientConnectorError and the subsequent update() raises ClientError. -/
def wDown : RemoteWorld := ⟨fun _ => AttemptResult.retryErr, true, none⟩

/-- Concrete empty store, for witnesses. -/
def pdNil : PersistentData Bool := ⟨[], false⟩

/-! ## Theorems: association lists and the persistent store -/

@[simp] theorem alookup_aupsert_self {β : Type} (k : String) (v : β)
    (l : List (String × β)) : alookup k (aupsert k v l) = some v := by
  induction l with
  | nil => simp [alookup, aupsert]
  | cons hd tl ih =>
    obtain ⟨k2, v2⟩ := hd
    by_cases h : k2 = k
    · simp [alookup, aupsert, h]
    · simp [alookup, aupsert, h, ih]

theorem alookup_aupsert_ne {β : Type} {k1 k2 : String} (hne : k1 ≠ k2) (v : β)
    (l : List (String × β)) : alookup k1 (aupsert k2 v l) = alookup k1 l := by
  have hne2 : k2 ≠ k1 := Ne.symm hne
  induction l with
  | nil => simp [alookup, aupsert, hne2]
  | cons hd tl ih =>
    obtain ⟨k3, v3⟩ := hd
    by_cases h : k3 = k2
    · subst h
      simp [alookup, aupsert, hne2]
    · by_cases h1 : k3 = k1
      · subst h1
        simp [alookup, aupsert, h]
      · simp [alookup, aupsert, h, h1, ih]

@[simp] theorem getVal_setVal_self {α : Type} [DecidableEq α]
    (pd : PersistentData α) (category instanceId : String) (val : α)
    (dflt : Option α) :
    PersistentData.getVal (PersistentData.setVal pd category instanceId val)
      category instanceId dflt = some val := by
  unfold PersistentData.setVal PersistentData.getVal
  cases hc : alookup category pd.data with
  | none =>
    simp only [hc]
    simp [alookup]
  | some cat =>
    cases hi : alookup instanceId cat with
    | none =>
      simp only [hc, hi]
      simp
    | some v =>
      simp only [hc, hi]
      by_cases hv : v = val
      · simp [hv, hc, hi]
      · simp [hv]

theorem getVal_setVal_ne {α : Type} [DecidableEq α] (pd : PersistentData α)
    (category : String) {i1 i2 : String} (hne : i1 ≠ i2) (val : α)
    (dflt : Option α) :
    PersistentData.getVal (PersistentData.setVal pd category i2 val)
        category i1 dflt
      = PersistentData.getVal pd category i1 dflt := by
  have hne2 : i2 ≠ i1 := Ne.symm hne
  unfold PersistentData.setVal PersistentData.getVal
  cases hc : alookup category pd.data with
  | none =>
    simp only [hc]
    simp [alookup, hne2]
  | some cat =>
    cases hi : alookup i2 cat with
    | none =>
      simp only [hc, hi]
      simp [alookup_aupsert_ne (β := α) hne, hc]
    | some v =>
      simp only [hc, hi]
      by_cases hv : v = val
      · simp [hv, hc]
      · simp [hv, alookup_aupsert_ne (β := α) hne, hc]

/-- C7: for every store state, calling setVal with a value equal to the one the
store already holds for that (category, instanceId) pair leaves the stored
mappings and the needsSave dirty flag unchanged, and exit writes the store to
disk at most once, exactly when the dirty flag is set. -/
theorem claim_C7 {α : Type} [DecidableEq α] (pd : PersistentData α)
    (category instanceId : String) (val : α) (cat : List (String × α))
    (file : Option (List (String × List (String × α))))
    (hcat : alookup category pd.data = some cat)
    (hval : alookup instanceId cat = some val) :
    PersistentData.setVal pd category instanceId val = pd ∧
    (PersistentData.pdExit pd file).2.1.length ≤ 1 ∧
    ((PersistentData.pdExit pd file).2.1 ≠ [] ↔ pd.needsSave = true) := by
  refine ⟨?_, ?_, ?_⟩
  · unfold PersistentData.setVal
    simp only [hcat, hval]
    simp
  · unfold PersistentData.pdExit
    cases h : pd.needsSave <;> simp [h]
  · unfold PersistentData.pdExit
    cases h : pd.needsSave <;> simp [h]

/-- Witness for C7 at a concrete store holding priorAuxState for device 123. -/
theorem claim_C7_witness :
    PersistentData.setVal
        (⟨[("priorAuxState", [("123", true)])], false⟩ : PersistentData Bool)
        "priorAuxState" "123" true
      = ⟨[("priorAuxState", [("123", true)])], false⟩ ∧
    (PersistentData.pdExit
        (⟨[("priorAuxState", [("123", true)])], false⟩ : PersistentData Bool)
        none).2.1.length ≤ 1 ∧
    ((PersistentData.pdExit
        (⟨[("priorAuxState", [("123", true)])], false⟩ : PersistentData Bool)
        none).2.1 ≠ [] ↔
      (⟨[("priorAuxState", [("123", true)])], false⟩ : PersistentData Bool).needsSave
        = true) :=
  claim_C7 ⟨[("priorAuxState", [("123", true)])], false⟩ "priorAuxState" "123" true
    [("123", true)] none (by decide) (by decide)

/-- C8: saving a dirty store on exit and loading a fresh store from the written
file reproduces identical category/instance/value mappings, and loading when
the persistence file is absent yields an empty, clean store. -/
theorem claim_C8 {α : Type} (pd : PersistentData α)
    (file : Option (List (String × List (String × α))))
    (hdirty : pd.needsSave = true) :
    (PersistentData.pdEnter ((PersistentData.pdExit pd file).1)).data = pd.data ∧
    PersistentData.pdEnter (α := α) none = ⟨[], false⟩ := by
  constructor
  · unfold PersistentData.pdExit PersistentData.pdEnter
    simp [hdirty]
  · rfl

/-- Witness for C8 at a concrete dirty store. -/
theorem claim_C8_witness :
    (PersistentData.pdEnter
        ((PersistentData.pdExit
          (⟨[("priorAuxState", [("123", true), ("456", false)])], true⟩ :
            PersistentData Bool) none).1)).data
      = [("priorAuxState", [("123", true), ("456", false)])] ∧
    PersistentData.pdEnter (α := Bool) none = ⟨[], false⟩ :=
  claim_C8 ⟨[("priorAuxState", [("123", true), ("456", false)])], true⟩ none rfl

/-! ## Theorems: the retry loops -/

theorem invokeCount_retryLoop_le (att : Nat → AttemptResult) (idx r : Nat) :
    invokeCount (retryLoop att idx r).1 ≤ r := by
  induction r generalizing idx with
  | zero => simp [retryLoop, invokeCount]
  | succ r ih =>
    unfold retryLoop
    cases att idx with
    | ok => simp [invokeCount]
    | fatalErr => simp [invokeCount]
    | retryErr =>
      simp only [invokeCount, List.filter, decide_eq_true_eq]
      simpa [invokeCount] using Nat.succ_le_succ (ih (idx + 1))

theorem retryLoop_first_non_retryable (att : Nat → AttemptResult) :
    ∀ (n idx budget : Nat), n < budget →
      (∀ k, k < n → att (idx + k) = .retryErr) → att (idx + n) ≠ .retryErr →
      retryLoop att idx budget =
        (failBlocks n ++ [REv.invoke],
          if att (idx + n) = .ok then .succeeded else .propagated) := by
  intro n
  induction n with
  | zero =>
    intro idx budget hlt _ hstop
    obtain ⟨b, rfl⟩ : ∃ b, budget = b + 1 :=
      ⟨budget - 1, by omega⟩
    unfold retryLoop
    cases h : att (idx + 0) with
    | ok => simp_all [failBlocks]
    | fatalErr => simp_all [failBlocks]
    | retryErr => exact absurd h hstop
  | succ n ih =>
    intro idx budget hlt hpre hstop
    obtain ⟨b, rfl⟩ : ∃ b, budget = b + 1 :=
      ⟨budget - 1, by omega⟩
    have hfirst : att idx = .retryErr := by
      have := hpre 0 (Nat.succ_pos n)
      simpa using this
    unfold retryLoop
    rw [hfirst]
    have harith : ∀ k : Nat, idx + 1 + k = idx + (k + 1) := fun k => by omega
    have hrest := ih (idx + 1) b (by omega)
      (fun k hk => by rw [harith k]; exact hpre (k + 1) (by omega))
      (by rw [harith n]; exact hstop)
    simp only [hrest, failBlocks]
    rw [harith n]
    simp

theorem retryLoop_all_retryable (att : Nat → AttemptResult) :
    ∀ (budget idx : Nat), (∀ k, k < budget → att (idx + k) = .retryErr) →
      retryLoop att idx budget = (failBlocks budget, .exhausted) := by
  intro budget
  induction budget with
  | zero => intro idx _; rfl
  | succ b ih =>
    intro idx hall
    have hfirst : att idx = .retryErr := by
      have := hall 0 (Nat.succ_pos b)
      simpa using this
    unfold retryLoop
    rw [hfirst]
    have hrest := ih (idx + 1)
      (fun k hk => by
        have : idx + 1 + k = idx + (k + 1) := by omega
        rw [this]; exact hall (k + 1) (by omega))
    simp only [hrest, failBlocks]

/-- C4: each retry-wrapped remote operation is invoked at most 6 times; each
retryable failure is logged at error severity and followed by a 15-unit sleep;
a non-retryable failure propagates immediately after its invocation; and when
all attempts fail retryably the loop falls through normally (exhausted, not
propagated), leaving the caller to check its own success flag. -/
theorem claim_C4 (att : Nat → AttemptResult) :
    invokeCount (retryRun att).1 ≤ 6 ∧
    (∀ n, n < 6 → (∀ k, k < n → att k = .retryErr) → att n ≠ .retryErr →
      retryRun att = (failBlocks n ++ [REv.invoke],
        if att n = .ok then .succeeded else .propagated)) ∧
    ((∀ k, k < 6 → att k = .retryErr) →
      retryRun att = (failBlocks 6, .exhausted)) := by
  refine ⟨invokeCount_retryLoop_le att 0 6, ?_, ?_⟩
  · intro n hn hpre hstop
    have := retryLoop_first_non_retryable att n 0 6 hn
      (fun k hk => by simpa using hpre k hk) (by simpa using hstop)
    simpa [retryRun] using this
  · intro hall
    have := retryLoop_all_retryable att 6 0 (fun k hk => by simpa using hall k hk)
    simpa [retryRun] using this

/-- Witness for C4: with every attempt failing retryably, the run performs its
6 invocations, logging and sleeping 15 after each, and exhausts normally. -/
theorem claim_C4_witness :
    retryRun (fun _ => AttemptResult.retryErr) = (failBlocks 6, RetryResult.exhausted) ∧
    invokeCount (retryRun (fun _ => AttemptResult.retryErr)).1 ≤ 6 :=
  ⟨(claim_C4 (fun _ => AttemptResult.retryErr)).2.2 (fun _ _ => rfl),
    (claim_C4 (fun _ => AttemptResult.retryErr)).1⟩

/-! ## Theorems: the polling loop -/

theorem pollCount_pollLoop_le (g : Nat → PollResp) (idx r : Nat) :
    pollCount (pollLoop g idx r).1 ≤ r := by
  induction r generalizing idx with
  | zero => simp [pollLoop, pollCount]
  | succ r ih =>
    unfold pollLoop
    cases g idx with
    | body s =>
      by_cases hs : s = "success" <;> simp [pollCount, hs]
    | nullBody =>
      simpa [pollCount] using Nat.succ_le_succ (ih (idx + 1))

theorem pollsSleepPreceded_pollLoop (g : Nat → PollResp) (idx r : Nat) :
    pollsSleepPreceded (pollLoop g idx r).1 = true := by
  induction r generalizing idx with
  | zero => rfl
  | succ r ih =>
    unfold pollLoop
    cases g idx with
    | body s =>
      by_cases hs : s = "success" <;> simp [pollsSleepPreceded, hs]
    | nullBody =>
      simpa [pollsSleepPreceded] using ih (idx + 1)

theorem pollLoop_first_non_null (g : Nat → PollResp) :
    ∀ (n idx budget : Nat) (s : String), n < budget →
      (∀ k, k < n → g (idx + k) = .nullBody) → g (idx + n) = .body s →
      pollLoop g idx budget =
        (nullBlocks n ++ PEv.sleep (4/5) :: PEv.getPoll ::
          (if s = "success" then [] else [PEv.logBadStatus s]), .completed s) := by
  intro n
  induction n with
  | zero =>
    intro idx budget s hlt _ hbody
    obtain ⟨b, rfl⟩ : ∃ b, budget = b + 1 := ⟨budget - 1, by omega⟩
    have hbody0 : g idx = .body s := by simpa using hbody
    unfold pollLoop
    rw [hbody0]
    simp [nullBlocks]
  | succ n ih =>
    intro idx budget s hlt hpre hbody
    obtain ⟨b, rfl⟩ : ∃ b, budget = b + 1 := ⟨budget - 1, by omega⟩
    have hfirst : g idx = .nullBody := by
      have := hpre 0 (Nat.succ_pos n)
      simpa using this
    have harith : ∀ k : Nat, idx + 1 + k = idx + (k + 1) := fun k => by omega
    unfold pollLoop
    rw [hfirst]
    have hrest := ih (idx + 1) b s (by omega)
      (fun k hk => by rw [harith k]; exact hpre (k + 1) (by omega))
      (by rw [harith n]; exact hbody)
    simp only [hrest, nullBlocks]
    simp

theorem pollLoop_all_null (g : Nat → PollResp) :
    ∀ (budget idx : Nat), (∀ k, k < budget → g (idx + k) = .nullBody) →
      pollLoop g idx budget = (nullBlocks budget ++ [PEv.logGaveUp], .timedOut) := by
  intro budget
  induction budget with
  | zero => intro idx _; rfl
  | succ b ih =>
    intro idx hall
    have hfirst : g idx = .nullBody := by
      have := hall 0 (Nat.succ_pos b)
      simpa using this
    unfold pollLoop
    rw [hfirst]
    have hrest := ih (idx + 1)
      (fun k hk => by
        have : idx + 1 + k = idx + (k + 1) := by omega
        rw [this]; exact hall (k + 1) (by omega))
    simp only [hrest, nullBlocks]
    simp

/-- C5: the sensor-state polling loop performs at most 50 GETs, each preceded
by a 0.8-unit sleep; it returns with the parsed status on the first non-null
body; and when every body is null it times out within the budget, logging an
error and returning normally. -/
theorem claim_C5 (g : Nat → PollResp) :
    pollCount (pollRun g).1 ≤ 50 ∧
    pollsSleepPreceded (pollRun g).1 = true ∧
    (∀ n s, n < 50 → (∀ k, k < n → g k = .nullBody) → g n = .body s →
      pollRun g = (nullBlocks n ++ PEv.sleep (4/5) :: PEv.getPoll ::
        (if s = "success" then [] else [PEv.logBadStatus s]), .completed s)) ∧
    ((∀ k, k < 50 → g k = .nullBody) →
      pollRun g = (nullBlocks 50 ++ [PEv.logGaveUp], .timedOut)) := by
  refine ⟨pollCount_pollLoop_le g 0 50, pollsSleepPreceded_pollLoop g 0 50, ?_, ?_⟩
  · intro n s hn hpre hbody
    have := pollLoop_first_non_null g n 0 50 s hn
      (fun k hk => by simpa using hpre k hk) (by simpa using hbody)
    simpa [pollRun] using this
  · intro hall
    have := pollLoop_all_null g 50 0 (fun k hk => by simpa using hall k hk)
    simpa [pollRun] using this

/-- Witness for C5: a remote that always answers the literal null drives the
loop to its timeout within exactly 50 sleep-then-GET rounds. -/
theorem claim_C5_witness :
    pollRun (fun _ => PollResp.nullBody)
        = (nullBlocks 50 ++ [PEv.logGaveUp], PollOutcome.timedOut) ∧
    pollCount (pollRun (fun _ => PollResp.nullBody)).1 ≤ 50 :=
  ⟨(claim_C5 (fun _ => PollResp.nullBody)).2.2.2 (fun _ _ => rfl),
    (claim_C5 (fun _ => PollResp.nullBody)).1⟩

/-! ## Theorems: sensor-data formatting -/

theorem sensorFragment_eq_spec (s : Sensor) :
    sensorFragment s = sensorFragmentSpec s := by
  unfold sensorFragment sensorFragmentSpec
  by_cases h : s.type = "thermostat"
  · rw [if_pos h, if_pos h]
    exact rfl
  · rw [if_neg h, if_neg h]
    rw [String.append_assoc s.name ":" " "]
    exact rfl

theorem sensorData_eq_spec (sensors : List Sensor) :
    sensorData sensors = String.intercalate "; " (sensors.map sensorFragmentSpec) := by
  unfold sensorData
  rw [show sensorFragment = sensorFragmentSpec from funext sensorFragment_eq_spec]

theorem enablerPass_sensors_independent (pd : PersistentData Bool) (d : Device)
    (ss : List Sensor) :
    (enablerPass pd { d with sensors := ss }).1.filter (fun e => !isLogEv e)
      = (enablerPass pd d).1.filter (fun e => !isLogEv e) ∧
    (enablerPass pd { d with sensors := ss }).2 = (enablerPass pd d).2 := by
  by_cases h : d.auxHeatOn <;> simp [enablerPass, h, isLogEv]

theorem restorerPass_sensors_independent (pd : PersistentData Bool) (d : Device)
    (ss : List Sensor) :
    (restorerPass pd { d with sensors := ss }).1.filter (fun e => !isLogEv e)
      = (restorerPass pd d).1.filter (fun e => !isLogEv e) ∧
    (restorerPass pd { d with sensors := ss }).2 = (restorerPass pd d).2 := by
  by_cases h : d.auxHeatOn =
      (PersistentData.getVal pd PRIOR_AUX_STATE d.deviceId none).getD false <;>
    simp [restorerPass, h, isLogEv]

theorem statusPass_sensors_independent (pd : PersistentData Bool) (d : Device)
    (ss : List Sensor) :
    (statusPass pd { d with sensors := ss }).1.filter (fun e => !isLogEv e)
      = (statusPass pd d).1.filter (fun e => !isLogEv e) ∧
    (statusPass pd { d with sensors := ss }).2 = (statusPass pd d).2 := by
  simp [statusPass, isLogEv]

/-- C9: sensorData is a pure function equal, sensor by sensor, to the spec's
format (comma-space prefixed bare reading for the thermostat sensor, name
colon space then the reading otherwise, fragments joined with "; "); and the
sensor list has no effect on the control decisions of any pass: the non-log
events and the resulting store are unchanged under any change of sensors. -/
theorem claim_C9 (sensors : List Sensor) (pd : PersistentData Bool) (d : Device)
    (ss : List Sensor) :
    sensorData sensors = String.intercalate "; " (sensors.map sensorFragmentSpec) ∧
    ((enablerPass pd { d with sensors := ss }).1.filter (fun e => !isLogEv e)
        = (enablerPass pd d).1.filter (fun e => !isLogEv e) ∧
      (enablerPass pd { d with sensors := ss }).2 = (enablerPass pd d).2) ∧
    ((restorerPass pd { d with sensors := ss }).1.filter (fun e => !isLogEv e)
        = (restorerPass pd d).1.filter (fun e => !isLogEv e) ∧
      (restorerPass pd { d with sensors := ss }).2 = (restorerPass pd d).2) ∧
    ((statusPass pd { d with sensors := ss }).1.filter (fun e => !isLogEv e)
        = (statusPass pd d).1.filter (fun e => !isLogEv e) ∧
      (statusPass pd { d with sensors := ss }).2 = (statusPass pd d).2) :=
  ⟨sensorData_eq_spec sensors, enablerPass_sensors_independent pd d ss,
    restorerPass_sensors_independent pd d ss, statusPass_sensors_independent pd d ss⟩

/-! ## Theorems: login and the processor skeleton -/

theorem loginModel_filter_nil (w : RemoteWorld) (p : Ev → Bool)
    (hcall : p Ev.loginCall = false)
    (hlog : p (Ev.errorLog "Login retry needed due to ClientConnectorError") = false)
    (hsleep : ∀ q, p (Ev.sleepEv q) = false)
    (hupd : p Ev.updateCall = false)
    (hdebug : ∀ m, p (Ev.debugLog m) = false) :
    (loginModel w).1.filter p = [] := by
  have hmap : ∀ l : List REv, (l.map loginRetryEv).filter p = [] := by
    intro l
    induction l with
    | nil => rfl
    | cons x xs ih => cases x <;> simp [loginRetryEv, hcall, hlog, hsleep, ih]
  have hdbg : ∀ ds : List Device, (ds.map (fun d =>
      Ev.debugLog (d.name ++ " at login" ++ sensorData d.sensors))).filter p = [] := by
    intro ds
    induction ds with
    | nil => rfl
    | cons x xs ih => simp [hdebug, ih]
  simp only [loginModel]
  cases hr : (retryRun w.att).2 with
  | propagated => simp [hmap]
  | succeeded =>
    by_cases hu : w.updateRaises
    · simp [hu, List.filter_append, hmap, hupd]
    · cases ht : w.thermostats with
      | none => simp [hu, ht, List.filter_append, hmap, hupd]
      | some devs => simp [hu, ht, List.filter_append, hmap, hupd, hdbg]
  | exhausted =>
    by_cases hu : w.updateRaises
    · simp [hu, List.filter_append, hmap, hupd]
    · cases ht : w.thermostats with
      | none => simp [hu, ht, List.filter_append, hmap, hupd]
      | some devs => simp [hu, ht, List.filter_append, hmap, hupd, hdbg]

theorem loginModel_returned_true (w : RemoteWorld) (b : Bool)
    (h : (loginModel w).2 = LoginResult.returned b) : b = true := by
  simp only [loginModel] at h
  cases hr : (retryRun w.att).2 <;> rw [hr] at h
  case propagated => simp at h
  all_goals {
    by_cases hu : w.updateRaises
    · simp [hu] at h
    · cases ht : w.thermostats with
      | none => simp [hu, ht] at h
      | some devs =>
        simp [hu, ht] at h
        exact h
  }

theorem loginModel_success_snd (w : RemoteWorld) (devs : List Device)
    (hth : w.thermostats = some devs) (hupd : w.updateRaises = false)
    (hloop : (retryRun w.att).2 ≠ RetryResult.propagated) :
    (loginModel w).2 = LoginResult.returned true := by
  simp only [loginModel]
  cases hr : (retryRun w.att).2 with
  | propagated => exact absurd hr hloop
  | succeeded => simp [hupd, hth]
  | exhausted => simp [hupd, hth]

theorem processModel_success
    (pass : PersistentData Bool → Device → List Ev × PersistentData Bool)
    (w : RemoteWorld) (pd : PersistentData Bool) (devs : List Device)
    (hth : w.thermostats = some devs) (hupd : w.updateRaises = false)
    (hloop : (retryRun w.att).2 ≠ RetryResult.propagated) :
    processModel pass w pd =
      ((loginModel w).1 ++ (runPasses pass pd devs).1,
        (runPasses pass pd devs).2, false) := by
  have h2 := loginModel_success_snd w devs hth hupd hloop
  simp only [processModel, h2, hth]
  simp

/-! ## Theorems: per-device passes and the device loop -/

theorem enablerPass_store (pd : PersistentData Bool) (d : Device) :
    (enablerPass pd d).2
      = PersistentData.setVal pd PRIOR_AUX_STATE d.deviceId d.auxHeatOn := by
  by_cases h : d.auxHeatOn <;> simp [enablerPass, h]

theorem enablerPass_setAux_self (pd : PersistentData Bool) (d : Device) :
    (enablerPass pd d).1.filter (isSetAuxFor d.deviceId) =
      if d.auxHeatOn then [] else [Ev.setAuxHeat d.deviceId true] := by
  by_cases h : d.auxHeatOn <;> simp [enablerPass, h, isSetAuxFor]

theorem enablerPass_setAux_ne (pd : PersistentData Bool) (d : Device)
    {x : String} (hne : x ≠ d.deviceId) :
    (enablerPass pd d).1.filter (isSetAuxFor x) = [] := by
  have hbeq : (d.deviceId == x) = false := beq_eq_false_iff_ne.mpr (Ne.symm hne)
  by_cases h : d.auxHeatOn <;> simp [enablerPass, h, isSetAuxFor, hbeq]

theorem enablerPass_head (pd : PersistentData Bool) (d : Device) :
    ∃ tl, (enablerPass pd d).1
      = Ev.setValEv PRIOR_AUX_STATE d.deviceId d.auxHeatOn :: tl := by
  by_cases h : d.auxHeatOn
  · refine ⟨[Ev.loadSensorState d.deviceId, Ev.refreshDevice d.deviceId,
      Ev.infoLog (d.name ++ " auxiliary heat was already on"
        ++ sensorData d.sensors)], ?_⟩
    simp [enablerPass, h]
  · refine ⟨[Ev.loadSensorState d.deviceId, Ev.setAuxHeat d.deviceId true,
      Ev.infoLog (d.name ++ " auxiliary heat changed from off to "
        ++ auxOnOff true ++ sensorData d.sensors)], ?_⟩
    simp [enablerPass, h]

theorem restorerPass_store (pd : PersistentData Bool) (d : Device) :
    (restorerPass pd d).2 = pd := by
  by_cases h : d.auxHeatOn
      = (PersistentData.getVal pd PRIOR_AUX_STATE d.deviceId none).getD false <;>
    simp [restorerPass, h]

theorem restorerPass_setAux_self (pd : PersistentData Bool) (d : Device) :
    (restorerPass pd d).1.filter (isSetAuxFor d.deviceId) =
      if d.auxHeatOn
          = (PersistentData.getVal pd PRIOR_AUX_STATE d.deviceId none).getD false
      then []
      else [Ev.setAuxHeat d.deviceId
        ((PersistentData.getVal pd PRIOR_AUX_STATE d.deviceId none).getD false)] := by
  by_cases h : d.auxHeatOn
      = (PersistentData.getVal pd PRIOR_AUX_STATE d.deviceId none).getD false <;>
    simp [restorerPass, h, isSetAuxFor]

theorem restorerPass_setAux_ne (pd : PersistentData Bool) (d : Device)
    {x : String} (hne : x ≠ d.deviceId) :
    (restorerPass pd d).1.filter (isSetAuxFor x) = [] := by
  have hbeq : (d.deviceId == x) = false := beq_eq_false_iff_ne.mpr (Ne.symm hne)
  by_cases h : d.auxHeatOn
      = (PersistentData.getVal pd PRIOR_AUX_STATE d.deviceId none).getD false <;>
    simp [restorerPass, h, isSetAuxFor, hbeq]

theorem runPasses_filter_nil
    (pass : PersistentData Bool → Device → List Ev × PersistentData Bool)
    (p : Ev → Bool) (h : ∀ pd d, (pass pd d).1.filter p = []) :
    ∀ (ds : List Device) (pd : PersistentData Bool),
      (runPasses pass pd ds).1.filter p = [] := by
  intro ds
  induction ds with
  | nil => intro pd; rfl
  | cons a ds ih =>
    intro pd
    simp [runPasses, List.filter_append, h pd a, ih]

theorem runPasses_store_id
    (pass : PersistentData Bool → Device → List Ev × PersistentData Bool)
    (h : ∀ pd d, (pass pd d).2 = pd) :
    ∀ (ds : List Device) (pd : PersistentData Bool),
      (runPasses pass pd ds).2 = pd := by
  intro ds
  induction ds with
  | nil => intro pd; rfl
  | cons a ds ih =>
    intro pd
    have : (runPasses pass pd (a :: ds)).2 = (runPasses pass (pass pd a).2 ds).2 := by
      simp [runPasses]
    rw [this, h pd a]
    exact ih pd

theorem runPasses_setAux_not_mem
    (pass : PersistentData Bool → Device → List Ev × PersistentData Bool)
    (x : String)
    (hpass : ∀ pd d, x ≠ d.deviceId → (pass pd d).1.filter (isSetAuxFor x) = []) :
    ∀ (ds : List Device) (pd : PersistentData Bool), x ∉ ds.map Device.deviceId →
      (runPasses pass pd ds).1.filter (isSetAuxFor x) = [] := by
  intro ds
  induction ds with
  | nil => intro pd _; rfl
  | cons a ds ih =>
    intro pd hx
    simp only [List.map_cons, List.mem_cons, not_or] at hx
    simp [runPasses, List.filter_append, hpass pd a hx.1, ih _ hx.2]

theorem runPasses_enabler_setAux (d : Device) :
    ∀ (ds : List Device) (pd : PersistentData Bool), d ∈ ds →
      (ds.map Device.deviceId).Nodup →
      (runPasses enablerPass pd ds).1.filter (isSetAuxFor d.deviceId) =
        if d.auxHeatOn then [] else [Ev.setAuxHeat d.deviceId true] := by
  intro ds
  induction ds with
  | nil => intro pd hmem _; cases hmem
  | cons a ds ih =>
    intro pd hmem hnodup
    rw [List.map_cons, List.nodup_cons] at hnodup
    rcases List.mem_cons.mp hmem with h | hmem2
    · subst h
      simp only [runPasses, List.filter_append]
      rw [enablerPass_setAux_self,
        runPasses_setAux_not_mem enablerPass d.deviceId
          (fun pd2 d2 hne => enablerPass_setAux_ne pd2 d2 hne) ds _ hnodup.1]
      simp
    · have hdin : d.deviceId ∈ ds.map Device.deviceId :=
        List.mem_map_of_mem _ hmem2
      have hne : d.deviceId ≠ a.deviceId := fun he => hnodup.1 (he ▸ hdin)
      simp only [runPasses, List.filter_append]
      rw [enablerPass_setAux_ne pd a hne, ih _ hmem2 hnodup.2]
      simp

theorem runPasses_enabler_getVal_stable (x : String) :
    ∀ (ds : List Device) (pd : PersistentData Bool), x ∉ ds.map Device.deviceId →
      PersistentData.getVal (runPasses enablerPass pd ds).2 PRIOR_AUX_STATE x none
        = PersistentData.getVal pd PRIOR_AUX_STATE x none := by
  intro ds
  induction ds with
  | nil => intro pd _; rfl
  | cons a ds ih =>
    intro pd hx
    simp only [List.map_cons, List.mem_cons, not_or] at hx
    have hstep : (runPasses enablerPass pd (a :: ds)).2
        = (runPasses enablerPass (enablerPass pd a).2 ds).2 := by
      simp [runPasses]
    rw [hstep, ih _ hx.2, enablerPass_store]
    exact getVal_setVal_ne pd PRIOR_AUX_STATE hx.1 a.auxHeatOn none

theorem runPasses_enabler_store_val (d : Device) :
    ∀ (ds : List Device) (pd : PersistentData Bool), d ∈ ds →
      (ds.map Device.deviceId).Nodup →
      PersistentData.getVal (runPasses enablerPass pd ds).2
          PRIOR_AUX_STATE d.deviceId none
        = some d.auxHeatOn := by
  intro ds
  induction ds with
  | nil => intro pd hmem _; cases hmem
  | cons a ds ih =>
    intro pd hmem hnodup
    rw [List.map_cons, List.nodup_cons] at hnodup
    have hstep : (runPasses enablerPass pd (a :: ds)).2
        = (runPasses enablerPass (enablerPass pd a).2 ds).2 := by
      simp [runPasses]
    rcases List.mem_cons.mp hmem with h | hmem2
    · subst h
      rw [hstep, runPasses_enabler_getVal_stable d.deviceId ds _ hnodup.1,
        enablerPass_store]
      exact getVal_setVal_self pd PRIOR_AUX_STATE d.deviceId d.auxHeatOn none
    · rw [hstep]
      exact ih _ hmem2 hnodup.2

theorem runPasses_enabler_order (d : Device) :
    ∀ (ds : List Device) (pd : PersistentData Bool), d ∈ ds →
      (ds.map Device.deviceId).Nodup →
      ∃ pre post, (runPasses enablerPass pd ds).1
          = pre ++ Ev.setValEv PRIOR_AUX_STATE d.deviceId d.auxHeatOn :: post ∧
        pre.filter (isSetAuxFor d.deviceId) = [] := by
  intro ds
  induction ds with
  | nil => intro pd hmem _; cases hmem
  | cons a ds ih =>
    intro pd hmem hnodup
    rw [List.map_cons, List.nodup_cons] at hnodup
    have htr : (runPasses enablerPass pd (a :: ds)).1
        = (enablerPass pd a).1
          ++ (runPasses enablerPass (enablerPass pd a).2 ds).1 := by
      simp [runPasses]
    rcases List.mem_cons.mp hmem with h | hmem2
    · subst h
      obtain ⟨tl, htl⟩ := enablerPass_head pd d
      refine ⟨[], tl ++ (runPasses enablerPass (enablerPass pd d).2 ds).1, ?_, rfl⟩
      rw [htr, htl]
      simp
    · obtain ⟨pre, post, hsplit, hfilter⟩ := ih (enablerPass pd a).2 hmem2 hnodup.2
      have hdin : d.deviceId ∈ ds.map Device.deviceId :=
        List.mem_map_of_mem _ hmem2
      have hne : d.deviceId ≠ a.deviceId := fun he => hnodup.1 (he ▸ hdin)
      refine ⟨(enablerPass pd a).1 ++ pre, post, ?_, ?_⟩
      · rw [htr, hsplit, List.append_assoc]
      · rw [List.filter_append, enablerPass_setAux_ne pd a hne, hfilter]
        rfl

theorem runPasses_restorer_setAux (d : Device) :
    ∀ (ds : List Device) (pd : PersistentData Bool), d ∈ ds →
      (ds.map Device.deviceId).Nodup →
      (runPasses restorerPass pd ds).1.filter (isSetAuxFor d.deviceId) =
        if d.auxHeatOn
            = (PersistentData.getVal pd PRIOR_AUX_STATE d.deviceId none).getD false
        then []
        else [Ev.setAuxHeat d.deviceId
          ((PersistentData.getVal pd PRIOR_AUX_STATE d.deviceId none).getD false)] := by
  intro ds
  induction ds with
  | nil => intro pd hmem _; cases hmem
  | cons a ds ih =>
    intro pd hmem hnodup
    rw [List.map_cons, List.nodup_cons] at hnodup
    have htr : (runPasses restorerPass pd (a :: ds)).1
        = (restorerPass pd a).1 ++ (runPasses restorerPass pd ds).1 := by
      simp [runPasses, restorerPass_store]
    rcases List.mem_cons.mp hmem with h | hmem2
    · subst h
      rw [htr, List.filter_append, restorerPass_setAux_self,
        runPasses_setAux_not_mem restorerPass d.deviceId
          (fun pd2 d2 hne => restorerPass_setAux_ne pd2 d2 hne) ds pd hnodup.1]
      simp
    · have hdin : d.deviceId ∈ ds.map Device.deviceId :=
        List.mem_map_of_mem _ hmem2
      have hne : d.deviceId ≠ a.deviceId := fun he => hnodup.1 (he ▸ hdin)
      rw [htr, List.filter_append, restorerPass_setAux_ne pd a hne,
        ih pd hmem2 hnodup.2]
      simp

theorem processModel_raised
    (pass : PersistentData Bool → Device → List Ev × PersistentData Bool)
    (w : RemoteWorld) (pd : PersistentData Bool)
    (h : (loginModel w).2 = LoginResult.raised) :
    processModel pass w pd = ((loginModel w).1, pd, true) := by
  simp only [processModel, h]

theorem processModel_noContact
    (pass : PersistentData Bool → Device → List Ev × PersistentData Bool)
    (w : RemoteWorld) (pd : PersistentData Bool)
    (h : (loginModel w).2 = LoginResult.returned false) :
    processModel pass w pd
      = ((loginModel w).1 ++ [Ev.errorLog "Unable to contact thermostat"],
          pd, false) := by
  simp only [processModel, h]
  simp

theorem processModel_returned_true
    (pass : PersistentData Bool → Device → List Ev × PersistentData Bool)
    (w : RemoteWorld) (pd : PersistentData Bool)
    (h : (loginModel w).2 = LoginResult.returned true) :
    processModel pass w pd
      = ((loginModel w).1 ++ (runPasses pass pd (w.thermostats.getD [])).1,
          (runPasses pass pd (w.thermostats.getD [])).2, false) := by
  simp only [processModel, h]
  simp

theorem statusProcess_clean (w : RemoteWorld) (pd : PersistentData Bool) :
    (statusProcess w pd).1.filter isMutatingOrStore = [] ∧
    (statusProcess w pd).2.1 = pd := by
  have hlogin := loginModel_filter_nil w isMutatingOrStore rfl rfl
    (fun _ => rfl) rfl (fun _ => rfl)
  have hpass : ∀ pd2 d, (statusPass pd2 d).1.filter isMutatingOrStore = [] := by
    intro pd2 d
    simp [statusPass, isMutatingOrStore]
  have hstore : ∀ pd2 d, (statusPass pd2 d).2 = pd2 := fun _ _ => rfl
  unfold statusProcess
  cases hl : (loginModel w).2 with
  | raised =>
    rw [processModel_raised statusPass w pd hl]
    exact ⟨hlogin, rfl⟩
  | returned b =>
    cases b with
    | false =>
      rw [processModel_noContact statusPass w pd hl]
      refine ⟨?_, rfl⟩
      simp [List.filter_append, hlogin, isMutatingOrStore]
    | true =>
      rw [processModel_returned_true statusPass w pd hl]
      refine ⟨?_, ?_⟩
      · simp [List.filter_append, hlogin,
          runPasses_filter_nil statusPass isMutatingOrStore hpass]
      · simp [runPasses_store_id statusPass hstore]

/-! ## Theorems: the claims about the run modes -/

/-- C1: under a login that completes successfully (thermostat list present,
update returns, the login retry loop does not propagate) and distinct device
ids, each device receives at most one set_emergency_heat call, issued exactly
when its auxiliary-heat flag differs from the mode's target — true for Enable,
the persisted prior state defaulting to false for Restore — and carrying
exactly that target value; in Status mode no setAuxHeat call and no
persistent-store read or write of any kind occurs and the store is returned
unchanged. -/
theorem claim_C1 (w : RemoteWorld) (pd : PersistentData Bool) (devs : List Device)
    (hth : w.thermostats = some devs) (hupd : w.updateRaises = false)
    (hloop : (retryRun w.att).2 ≠ RetryResult.propagated)
    (hnodup : (devs.map Device.deviceId).Nodup) :
    (∀ d ∈ devs,
      (enablerProcess w pd).1.filter (isSetAuxFor d.deviceId)
          = (if d.auxHeatOn then [] else [Ev.setAuxHeat d.deviceId true]) ∧
      (restorerProcess w pd).1.filter (isSetAuxFor d.deviceId)
          = (if d.auxHeatOn
                = (PersistentData.getVal pd PRIOR_AUX_STATE d.deviceId none).getD
                    false
             then []
             else [Ev.setAuxHeat d.deviceId
               ((PersistentData.getVal pd PRIOR_AUX_STATE d.deviceId none).getD
                 false)])) ∧
    (statusProcess w pd).1.filter isMutatingOrStore = [] ∧
    (statusProcess w pd).2.1 = pd := by
  have hE := processModel_success enablerPass w pd devs hth hupd hloop
  have hR := processModel_success restorerPass w pd devs hth hupd hloop
  refine ⟨fun d hd => ⟨?_, ?_⟩, statusProcess_clean w pd⟩
  · have hlf := loginModel_filter_nil w (isSetAuxFor d.deviceId) rfl rfl
      (fun _ => rfl) rfl (fun _ => rfl)
    unfold enablerProcess
    rw [hE]
    simp only [List.filter_append, hlf,
      runPasses_enabler_setAux d devs pd hd hnodup]
    simp
  · have hlf := loginModel_filter_nil w (isSetAuxFor d.deviceId) rfl rfl
      (fun _ => rfl) rfl (fun _ => rfl)
    unfold restorerProcess
    rw [hR]
    simp only [List.filter_append, hlf,
      runPasses_restorer_setAux d devs pd hd hnodup]
    simp

/-- Witness for C1 at a run knowing two devices, applied to the one whose
auxiliary heat is off over an empty store. -/
theorem claim_C1_witness :
    ((enablerProcess wTwo pdNil).1.filter (isSetAuxFor devOff.deviceId)
        = (if devOff.auxHeatOn then [] else [Ev.setAuxHeat devOff.deviceId true]) ∧
      (restorerProcess wTwo pdNil).1.filter (isSetAuxFor devOff.deviceId)
        = (if devOff.auxHeatOn
              = (PersistentData.getVal pdNil PRIOR_AUX_STATE devOff.deviceId
                  none).getD false
           then []
           else [Ev.setAuxHeat devOff.deviceId
             ((PersistentData.getVal pdNil PRIOR_AUX_STATE devOff.deviceId
               none).getD false)])) ∧
    (statusProcess wTwo pdNil).1.filter isMutatingOrStore = [] ∧
    (statusProcess wTwo pdNil).2.1 = pdNil :=
  ⟨(claim_C1 wTwo pdNil [devOn, devOff] rfl rfl (by decide) (by decide)).1
      devOff (by decide),
    (claim_C1 wTwo pdNil [devOn, devOff] rfl rfl (by decide) (by decide)).2⟩

/-- C2: in Enable mode, each device's auxiliary-heat flag as observed at the
start of its pass is persisted under priorAuxState; the persistence write
appears in the trace before any set_emergency_heat call for that device; and
after the run the stored value equals that pre-mutation flag. -/
theorem claim_C2 (w : RemoteWorld) (pd : PersistentData Bool) (devs : List Device)
    (hth : w.thermostats = some devs) (hupd : w.updateRaises = false)
    (hloop : (retryRun w.att).2 ≠ RetryResult.propagated)
    (hnodup : (devs.map Device.deviceId).Nodup) :
    ∀ d ∈ devs,
      PersistentData.getVal (enablerProcess w pd).2.1 PRIOR_AUX_STATE
          d.deviceId none
        = some d.auxHeatOn ∧
      ∃ pre post,
        (enablerProcess w pd).1
            = pre ++ Ev.setValEv PRIOR_AUX_STATE d.deviceId d.auxHeatOn :: post ∧
        pre.filter (isSetAuxFor d.deviceId) = [] := by
  have hE := processModel_success enablerPass w pd devs hth hupd hloop
  intro d hd
  constructor
  · unfold enablerProcess
    rw [hE]
    exact runPasses_enabler_store_val d devs pd hd hnodup
  · obtain ⟨pre, post, hsplit, hfil⟩ := runPasses_enabler_order d devs pd hd hnodup
    have hlf := loginModel_filter_nil w (isSetAuxFor d.deviceId) rfl rfl
      (fun _ => rfl) rfl (fun _ => rfl)
    refine ⟨(loginModel w).1 ++ pre, post, ?_, ?_⟩
    · unfold enablerProcess
      rw [hE]
      simp only [hsplit]
      simp [List.append_assoc]
    · rw [List.filter_append, hlf, hfil]
      rfl

/-- Witness for C2 at a run knowing two devices, applied to the one whose
auxiliary heat is on. -/
theorem claim_C2_witness :
    PersistentData.getVal (enablerProcess wTwo pdNil).2.1 PRIOR_AUX_STATE
        devOn.deviceId none
      = some devOn.auxHeatOn ∧
    ∃ pre post,
      (enablerProcess wTwo pdNil).1
          = pre ++ Ev.setValEv PRIOR_AUX_STATE devOn.deviceId devOn.auxHeatOn
              :: post ∧
      pre.filter (isSetAuxFor devOn.deviceId) = [] :=
  claim_C2 wTwo pdNil [devOn, devOff] rfl rfl (by decide) (by decide)
    devOn (by decide)

/-- C3: in Restore mode, a device whose priorAuxState was never persisted is
reconciled against the target false: a set_emergency_heat call occurs exactly
when the device is currently on, and every such call carries false. -/
theorem claim_C3 (w : RemoteWorld) (pd : PersistentData Bool) (devs : List Device)
    (hth : w.thermostats = some devs) (hupd : w.updateRaises = false)
    (hloop : (retryRun w.att).2 ≠ RetryResult.propagated)
    (hnodup : (devs.map Device.deviceId).Nodup) :
    ∀ d ∈ devs,
      PersistentData.getVal pd PRIOR_AUX_STATE d.deviceId none = none →
      (restorerProcess w pd).1.filter (isSetAuxFor d.deviceId)
          = (if d.auxHeatOn then [Ev.setAuxHeat d.deviceId false] else []) ∧
      (∀ v, Ev.setAuxHeat d.deviceId v ∈ (restorerProcess w pd).1 → v = false) := by
  have hR := processModel_success restorerPass w pd devs hth hupd hloop
  intro d hd habsent
  have hlf := loginModel_filter_nil w (isSetAuxFor d.deviceId) rfl rfl
    (fun _ => rfl) rfl (fun _ => rfl)
  have hrun := runPasses_restorer_setAux d devs pd hd hnodup
  rw [habsent] at hrun
  simp only [Option.getD_none] at hrun
  have hfilter : (restorerProcess w pd).1.filter (isSetAuxFor d.deviceId)
      = (if d.auxHeatOn then [Ev.setAuxHeat d.deviceId false] else []) := by
    unfold restorerProcess
    rw [hR]
    simp only [List.filter_append, hlf, hrun]
    cases hb : d.auxHeatOn <;> simp [hb]
  refine ⟨hfilter, ?_⟩
  intro v hv
  have hmemf : Ev.setAuxHeat d.deviceId v
      ∈ (restorerProcess w pd).1.filter (isSetAuxFor d.deviceId) :=
    List.mem_filter.mpr ⟨hv, by simp [isSetAuxFor]⟩
  rw [hfilter] at hmemf
  cases hb : d.auxHeatOn
  · rw [hb] at hmemf
    simp at hmemf
  · rw [hb] at hmemf
    simp at hmemf
    exact hmemf

/-- Witness for C3 at a run knowing two devices, applied to the currently-on
device over an empty store. -/
theorem claim_C3_witness :
    (restorerProcess wTwo pdNil).1.filter (isSetAuxFor devOn.deviceId)
        = (if devOn.auxHeatOn then [Ev.setAuxHeat devOn.deviceId false] else []) ∧
    (∀ v, Ev.setAuxHeat devOn.deviceId v ∈ (restorerProcess wTwo pdNil).1 →
      v = false) :=
  claim_C3 wTwo pdNil [devOn, devOff] rfl rfl (by decide) (by decide)
    devOn (by decide) rfl

/-- C6 (documents the code divergence): login never reports failure — a
returned flag is always true, because iterating a None thermostat list raises
TypeError before the flag is computed and a failed update() raises ClientError
out of login — so the error log line "Unable to contact thermostat" appears in
no trace of any run mode; at the failing input (all six login attempts raise
ClientConnectorError and update() then raises), the run ends by propagating
the exception after the update call, with the store untouched and the claimed
log line never emitted. -/
theorem claim_C6_bug :
    (∀ w b, (loginModel w).2 = LoginResult.returned b → b = true) ∧
    (∀ w pd, (enablerProcess w pd).1.filter isUnableMsg = [] ∧
      (restorerProcess w pd).1.filter isUnableMsg = [] ∧
      (statusProcess w pd).1.filter isUnableMsg = []) ∧
    enablerProcess wDown pdNil
      = ((failBlocks 6).map loginRetryEv ++ [Ev.updateCall], pdNil, true) := by
  have hgen : ∀ pass, (∀ pd2 d, (pass pd2 d).1.filter isUnableMsg = []) →
      ∀ w pd, (processModel pass w pd).1.filter isUnableMsg = [] := by
    intro pass hpass w pd
    have hlogin := loginModel_filter_nil w isUnableMsg rfl rfl
      (fun _ => rfl) rfl (fun _ => rfl)
    cases hl : (loginModel w).2 with
    | raised =>
      rw [processModel_raised pass w pd hl]
      exact hlogin
    | returned b =>
      have hb := loginModel_returned_true w b hl
      subst hb
      rw [processModel_returned_true pass w pd hl]
      simp [List.filter_append, hlogin,
        runPasses_filter_nil pass isUnableMsg hpass]
  refine ⟨fun w b h => loginModel_returned_true w b h, fun w pd => ⟨?_, ?_, ?_⟩, ?_⟩
  · exact hgen enablerPass (fun pd2 d => by
      by_cases h : d.auxHeatOn <;> simp [enablerPass, h, isUnableMsg]) w pd
  · exact hgen restorerPass (fun pd2 d => by
      by_cases h : d.auxHeatOn
          = (PersistentData.getVal pd2 PRIOR_AUX_STATE d.deviceId none).getD
              false <;>
        simp [restorerPass, h, isUnableMsg]) w pd
  · exact hgen statusPass (fun pd2 d => by simp [statusPass, isUnableMsg]) w pd
  · rfl

/-- C10: whenever the login retry loop does not propagate an exception —
in particular when all 6 attempts fail retryably — update() is invoked; a
returned success flag equals thermostats-is-not-None; and with an empty but
present thermostat list login reports success and every run mode completes
normally, processing zero devices and leaving the store untouched. -/
theorem claim_C10 (w : RemoteWorld) (pd : PersistentData Bool) :
    ((retryRun w.att).2 ≠ RetryResult.propagated →
      Ev.updateCall ∈ (loginModel w).1) ∧
    ((∀ k, k < 6 → w.att k = AttemptResult.retryErr) →
      Ev.updateCall ∈ (loginModel w).1) ∧
    (∀ b, (loginModel w).2 = LoginResult.returned b →
      b = Option.isSome w.thermostats) ∧
    (w.thermostats = some [] → w.updateRaises = false →
      (retryRun w.att).2 ≠ RetryResult.propagated →
      enablerProcess w pd = ((loginModel w).1, pd, false) ∧
      restorerProcess w pd = ((loginModel w).1, pd, false) ∧
      statusProcess w pd = ((loginModel w).1, pd, false)) := by
  have hAupd : (retryRun w.att).2 ≠ RetryResult.propagated →
      Ev.updateCall ∈ (loginModel w).1 := by
    intro hloop
    simp only [loginModel]
    cases hr : (retryRun w.att).2 with
    | propagated => exact absurd hr hloop
    | succeeded =>
      by_cases hu : w.updateRaises
      · simp [hu]
      · cases ht : w.thermostats <;> simp [hu, ht]
    | exhausted =>
      by_cases hu : w.updateRaises
      · simp [hu]
      · cases ht : w.thermostats <;> simp [hu, ht]
  refine ⟨hAupd, ?_, ?_, ?_⟩
  · intro hall
    have h6 := retryLoop_all_retryable w.att 6 0 (fun k hk => by simpa using hall k hk)
    apply hAupd
    rw [retryRun, h6]
    simp
  · intro b hb
    simp only [loginModel] at hb
    cases hr : (retryRun w.att).2 <;> rw [hr] at hb
    case propagated => simp at hb
    all_goals {
      by_cases hu : w.updateRaises
      · simp [hu] at hb
      · cases ht : w.thermostats with
        | none => simp [hu, ht] at hb
        | some devs =>
          simp [hu, ht] at hb
          simp [hb]
    }
  · intro hth hupd hloop
    have hE := processModel_success enablerPass w pd [] hth hupd hloop
    have hR := processModel_success restorerPass w pd [] hth hupd hloop
    have hS := processModel_success statusPass w pd [] hth hupd hloop
    refine ⟨?_, ?_, ?_⟩
    · unfold enablerProcess
      rw [hE]
      simp [runPasses]
    · unfold restorerProcess
      rw [hR]
      simp [runPasses]
    · unfold statusProcess
      rw [hS]
      simp [runPasses]

/-- Witness for C10: all six attempts fail retryably against a world whose
thermostat list is present but empty, yet update is invoked and the status run
completes normally with zero devices processed. -/
theorem claim_C10_witness :
    Ev.updateCall ∈ (loginModel wEmpty).1 ∧
    statusProcess wEmpty pdNil = ((loginModel wEmpty).1, pdNil, false) :=
  ⟨(claim_C10 wEmpty pdNil).2.1 (fun _ _ => rfl),
    ((claim_C10 wEmpty pdNil).2.2.2 rfl rfl (by decide)).2.2⟩

end Thermium
